import Mathlib

/-!
Verification of the LIN bus library (frame construction, checksums,
protected identifiers, transport/diagnostic frames and the master read
transaction) against its natural-language specification.

Machine integers are modelled as `Nat`; a `u8` value is a `Nat` that is
at most 255, a `u16` is reduced `% 65536` where wraparound could occur.
A Rust `assert!` (panic) is modelled by returning `none`.
-/

namespace LinBus

/-- The `u8::count_ones` intrinsic: the number of set bits among the eight
bits of a byte. -/
def count_ones (n : Nat) : Nat :=
  ((List.range 8).filter (fun i => n.testBit i)).length

/-- Protected ID: a 6 bit ID with two parity bits (newtype over `u8`),
as defined identically in frame.rs and lib.rs. -/
structure PID where
  val : Nat
deriving DecidableEq

/-- `PID::from_id_const`: `p0 = (id & 0b1_0111).count_ones() & 1`,
`p1 = ((id & 0b11_1010).count_ones() + 1) & 1`, and the result byte is
`id | (p0 << 6) | (p1 << 7)`. -/
def PID.from_id_const (id : Nat) : PID :=
  ⟨id ||| ((count_ones (id &&& 0b10111) &&& 0b1) <<< 6) |||
    (((count_ones (id &&& 0b111010) + 1) &&& 0b1) <<< 7)⟩

/-- `PID::from_id`: asserts `id < 64` (modelled as `none` on violation),
then computes the protected identifier. -/
def PID.from_id (id : Nat) : Option PID :=
  if id < 64 then some (PID.from_id_const id) else none

/-- `PID::get`: the contained PID byte. -/
def PID.get (p : PID) : Nat :=
  p.val

/-- `PID::get_id`: the contained ID, `pid & 0b0011_1111`. -/
def PID.get_id (p : PID) : Nat :=
  p.val &&& 0b111111

/-- `PID::uses_classic_checksum`: true iff `get_id() >= 60`. -/
def PID.uses_classic_checksum (p : PID) : Bool :=
  decide (60 ≤ p.get_id)

/-- One step of the fold inside `checksum`: `u16` addition (hence the
`% 65536`) followed by the end-around-carry correction `sum - 255`
whenever the running sum is at least 256. -/
def checksum_step (sum v : Nat) : Nat :=
  if 256 ≤ (sum + v) % 65536 then (sum + v) % 65536 - 255 else (sum + v) % 65536

/-- The accumulator of `checksum`: fold the data bytes with
`checksum_step`, seeded with the PID byte. -/
def checksum_acc (pid : PID) (data : List Nat) : Nat :=
  data.foldl checksum_step pid.val

/-- LIN V2.1 "enhanced" `checksum`: the final `!(sum as u8)` is
`255 - (sum % 256)`. -/
def checksum (pid : PID) (data : List Nat) : Nat :=
  255 - checksum_acc pid data % 256

/-- LIN V1.3 "classic" `classic_checksum`: `checksum(PID(0), data)`. -/
def classic_checksum (data : List Nat) : Nat :=
  checksum ⟨0⟩ data

/-- One step of the fold as the specification words it (claim C1): add the
byte and subtract 255 whenever the running sum is at least 256, over
unbounded integers. -/
def spec_step (sum v : Nat) : Nat :=
  if 256 ≤ sum + v then sum + v - 255 else sum + v

/-- The fold described by the specification for the checksum: start from
`p` and apply `spec_step` for each byte of `data` in order. -/
def spec_fold (p : Nat) (data : List Nat) : Nat :=
  data.foldl spec_step p

/-- Specification parity bit P0 (claim C2): the XOR of identifier bits
0, 1, 2 and 4. -/
def spec_p0 (id : Nat) : Bool :=
  (id.testBit 0).xor ((id.testBit 1).xor ((id.testBit 2).xor (id.testBit 4)))

/-- Specification parity bit P1 (claim C2): the negation of the XOR of
identifier bits 1, 3, 4 and 5. -/
def spec_p1 (id : Nat) : Bool :=
  !((id.testBit 1).xor ((id.testBit 3).xor ((id.testBit 4).xor (id.testBit 5))))

theorem checksum_step_eq_spec (a v : Nat) (ha : a ≤ 255) (hv : v ≤ 255) :
    checksum_step a v = spec_step a v ∧ checksum_step a v ≤ 255 := by
  unfold checksum_step spec_step
  rw [Nat.mod_eq_of_lt (by omega)]
  refine ⟨rfl, ?_⟩
  split <;> omega

theorem checksum_fold_invariant (data : List Nat) :
    ∀ a : Nat, a ≤ 255 → (∀ v ∈ data, v ≤ 255) →
      List.foldl checksum_step a data = List.foldl spec_step a data ∧
      List.foldl checksum_step a data ≤ 255 := by
  induction data with
  | nil =>
      intro a ha _
      exact ⟨rfl, ha⟩
  | cons v t ih =>
      intro a ha hd
      have hv : v ≤ 255 := hd v (List.mem_cons_self v t)
      have hstep := checksum_step_eq_spec a v ha hv
      have ht : ∀ w ∈ t, w ≤ 255 := fun w hw => hd w (List.mem_cons_of_mem v hw)
      have hrec := ih (checksum_step a v) hstep.2 ht
      simp only [List.foldl_cons]
      exact ⟨by rw [hrec.1, hstep.1], hrec.2⟩

/-- Claim C1: for every PID byte `p` and byte sequence `data`,
`checksum(p, data)` is the bitwise complement of the fold that starts from
`p` and, for each byte, adds it and subtracts 255 whenever the running sum
is at least 256; together with the concrete enhanced- and
classic-checksum examples from the specification. -/
theorem checksum_matches_spec :
    (∀ (p : Nat) (data : List Nat), p ≤ 255 → (∀ v ∈ data, v ≤ 255) →
      checksum ⟨p⟩ data = 255 - spec_fold p data) ∧
    checksum ⟨0xDD⟩ [0x01] = 0x21 ∧
    checksum ⟨0x4A⟩ [0x55, 0x93, 0xE5] = 0xE6 ∧
    checksum ⟨0xBF⟩ [0x40, 0xFF] = 0x00 ∧
    classic_checksum [0x01] = 0xFE ∧
    classic_checksum [0x01, 0x02, 0x03, 0x04, 0x05, 0x06, 0x07, 0x08] = 0xDB := by
  refine ⟨?_, by decide, by decide, by decide, by decide, by decide⟩
  intro p data hp hd
  obtain ⟨heq, hle⟩ := checksum_fold_invariant data p hp hd
  unfold checksum checksum_acc spec_fold
  simp only
  rw [heq] at hle ⊢
  rw [Nat.mod_eq_of_lt (by omega)]

/-- Witness for C1 at `p = 0xDD`, `data = [0x01]`. -/
theorem checksum_matches_spec_witness :
    checksum ⟨0xDD⟩ [0x01] = 255 - spec_fold 0xDD [0x01] :=
  checksum_matches_spec.1 0xDD [0x01] (by decide) (by decide)

/-- Claim C2: for every identifier below 64, `PID::from_id` returns
`id | (P0 << 6) | (P1 << 7)` with the parity bits of the specification,
and `get_id` of the result recovers the identifier; together with the
spot-check examples. -/
theorem pid_from_id_matches_spec :
    (∀ id : Nat, id < 64 →
      PID.from_id id =
        some ⟨id ||| ((if spec_p0 id then 1 else 0) <<< 6) |||
          ((if spec_p1 id then 1 else 0) <<< 7)⟩ ∧
      (PID.from_id id).map PID.get_id = some id) ∧
    PID.from_id 0 = some ⟨0x80⟩ ∧
    PID.from_id 1 = some ⟨0xC1⟩ ∧
    PID.from_id 2 = some ⟨0x42⟩ ∧
    PID.from_id 25 = some ⟨0x99⟩ ∧
    PID.from_id 27 = some ⟨0x5B⟩ ∧
    PID.from_id 29 = some ⟨0xDD⟩ := by
  refine ⟨?_, by decide, by decide, by decide, by decide, by decide, by decide⟩
  decide

/-- Witness for C2 at `id = 29`. -/
theorem pid_from_id_matches_spec_witness :
    PID.from_id 29 =
      some ⟨29 ||| ((if spec_p0 29 then 1 else 0) <<< 6) |||
        ((if spec_p1 29 then 1 else 0) <<< 7)⟩ ∧
    (PID.from_id 29).map PID.get_id = some 29 :=
  pid_from_id_matches_spec.1 29 (by decide)

/-- Claim C7: `PID::from_id` rejects exactly the identifiers of 64 and
above (the failure is the violated range assertion, the `OutOfRange`
condition of the specification), and succeeds on every identifier
below 64. -/
theorem pid_from_id_range :
    ∀ id : Nat, PID.from_id id = none ↔ 64 ≤ id := by
  intro id
  by_cases h : id < 64
  · simp [PID.from_id, h]
  · simp [PID.from_id, h]
    omega

/-- A LIN `Frame`: the PID, a 9 byte buffer holding the data bytes, then
the checksum byte, then zero padding, and the length of the data. The
struct is defined identically in frame.rs and master.rs. -/
structure Frame where
  pid : PID
  buffer : List Nat
  data_length : Nat
deriving DecidableEq

/-- `Frame::from_data` (identical in frame.rs and master.rs): asserts that
the data is at most 8 bytes (`none` on violation), copies the data into a
zeroed 9 byte buffer and appends the checksum selected by
`uses_classic_checksum`. -/
def Frame.from_data (pid : PID) (data : List Nat) : Option Frame :=
  if data.length ≤ 8 then
    some { pid := pid
         , buffer := data ++
             [if pid.uses_classic_checksum then classic_checksum data
              else checksum pid data] ++
             List.replicate (8 - data.length) 0
         , data_length := data.length }
  else
    none

/-- `Frame::get_data`: the first `data_length` bytes of the buffer. -/
def Frame.get_data (f : Frame) : List Nat :=
  f.buffer.take f.data_length

/-- `Frame::get_checksum`: the buffer byte at index `data_length`. -/
def Frame.get_checksum (f : Frame) : Nat :=
  f.buffer.getD f.data_length 0

/-- `Frame::get_pid`. -/
def Frame.get_pid (f : Frame) : PID :=
  f.pid

/-- `Frame::get_data_with_checksum`: the first `data_length + 1` bytes of
the buffer. -/
def Frame.get_data_with_checksum (f : Frame) : List Nat :=
  f.buffer.take (f.data_length + 1)

theorem uses_classic_iff (p : PID) :
    p.uses_classic_checksum = true ↔ 60 ≤ p.get_id := by
  simp [PID.uses_classic_checksum]

theorem from_data_eq (pid : PID) (data : List Nat) (h : data.length ≤ 8) :
    Frame.from_data pid data =
      some { pid := pid
           , buffer := data ++
               [if 60 ≤ pid.get_id then classic_checksum data
                else checksum pid data] ++
               List.replicate (8 - data.length) 0
           , data_length := data.length } := by
  rw [Frame.from_data, if_pos h]
  by_cases h60 : 60 ≤ pid.get_id
  · rw [if_pos ((uses_classic_iff pid).mpr h60), if_pos h60]
  · rw [if_neg (fun hc => h60 ((uses_classic_iff pid).mp hc)), if_neg h60]

theorem take_length_append (xs ys : List Nat) :
    (xs ++ ys).take xs.length = xs := by
  rw [List.take_append_eq_append_take, List.take_length, Nat.sub_self,
    List.take_zero, List.append_nil]

theorem take_length_append_eq (xs ys : List Nat) (n : Nat)
    (h : xs.length = n) : (xs ++ ys).take n = xs := by
  rw [← h]
  exact take_length_append xs ys

theorem take_length_append2 (xs ys zs : List Nat) :
    ((xs ++ ys) ++ zs).take xs.length = xs := by
  rw [List.append_assoc]
  exact take_length_append xs (ys ++ zs)

/-- Claim C6: `Frame::from_data` succeeds exactly on payloads of at most
8 bytes; the resulting frame returns the payload from `get_data`, the
selection-rule checksum (classic iff the identifier is at least 60) from
`get_checksum`, and payload-plus-checksum (one extra byte) from
`get_data_with_checksum`. -/
theorem from_data_round_trip :
    (∀ (pid : PID) (data : List Nat), data.length ≤ 8 →
      (Frame.from_data pid data).map Frame.get_data = some data ∧
      (Frame.from_data pid data).map Frame.get_checksum =
        some (if 60 ≤ pid.get_id then classic_checksum data
              else checksum pid data) ∧
      (Frame.from_data pid data).map Frame.get_data_with_checksum =
        some (data ++
          [if 60 ≤ pid.get_id then classic_checksum data
           else checksum pid data]) ∧
      (Frame.from_data pid data).map (fun f => f.get_data_with_checksum.length) =
        some (data.length + 1)) ∧
    (∀ (pid : PID) (data : List Nat), 8 < data.length →
      Frame.from_data pid data = none) := by
  constructor
  · intro pid data h
    rw [from_data_eq pid data h]
    simp only [Option.map_some', Option.some.injEq, Frame.get_data,
      Frame.get_checksum, Frame.get_data_with_checksum]
    refine ⟨?_, ?_, ?_, ?_⟩
    · rw [List.append_assoc]
      exact take_length_append data _
    · rw [List.append_assoc,
        List.getD_append_right data _ 0 data.length (Nat.le_refl _),
        Nat.sub_self]
      rfl
    · exact take_length_append_eq _ _ _ (by simp)
    · rw [take_length_append_eq _ _ _ (by simp)]
      simp
  · intro pid data h
    rw [Frame.from_data, if_neg (by omega)]

/-- Witness for C6 at `pid = PID(0xDD)`, `data = [0x01]`. -/
theorem from_data_round_trip_witness :
    (Frame.from_data ⟨0xDD⟩ [0x01]).map Frame.get_data = some [0x01] ∧
    (Frame.from_data ⟨0xDD⟩ [0x01]).map Frame.get_data_with_checksum =
      some [0x01,
        if 60 ≤ PID.get_id ⟨0xDD⟩ then classic_checksum [0x01]
        else checksum ⟨0xDD⟩ [0x01]] :=
  ⟨(from_data_round_trip.1 ⟨0xDD⟩ [0x01] (by decide)).1,
   (from_data_round_trip.1 ⟨0xDD⟩ [0x01] (by decide)).2.2.1⟩

/-- The diagnostic `Identifier` classification used by Read by
identifier. -/
inductive Identifier where
  | LINProductIdentification
  | SerialNumber
  | UserDefined (b : Nat)
  | Reserved (b : Nat)
deriving DecidableEq

/-- `From<u8> for Identifier`: 0 and 1 map to the two named variants,
32..=63 to `UserDefined`, everything else to `Reserved`. -/
def Identifier.from_byte (byte : Nat) : Identifier :=
  if byte = 0 then .LINProductIdentification
  else if byte = 1 then .SerialNumber
  else if 32 ≤ byte ∧ byte ≤ 63 then .UserDefined byte
  else .Reserved byte

/-- `From<Identifier> for u8`. -/
def Identifier.to_byte : Identifier → Nat
  | .LINProductIdentification => 0
  | .SerialNumber => 1
  | .UserDefined b => b
  | .Reserved b => b

/-- Claim C8: the byte-to-`Identifier` classification maps 0 to
`LINProductIdentification`, 1 to `SerialNumber`, 32 through 63 to
`UserDefined` and every other byte to `Reserved`, and converting back to
a byte recovers the original byte. -/
theorem identifier_round_trip :
    Identifier.from_byte 0 = .LINProductIdentification ∧
    Identifier.from_byte 1 = .SerialNumber ∧
    (∀ b : Nat, 32 ≤ b → b ≤ 63 → Identifier.from_byte b = .UserDefined b) ∧
    (∀ b : Nat, b ≠ 0 → b ≠ 1 → ¬(32 ≤ b ∧ b ≤ 63) →
      Identifier.from_byte b = .Reserved b) ∧
    (∀ b : Nat, (Identifier.from_byte b).to_byte = b) := by
  refine ⟨rfl, rfl, ?_, ?_, ?_⟩
  · intro b h1 h2
    rw [Identifier.from_byte, if_neg (by omega), if_neg (by omega),
      if_pos ⟨h1, h2⟩]
  · intro b h0 h1 h2
    rw [Identifier.from_byte, if_neg h0, if_neg h1, if_neg h2]
  · intro b
    by_cases h0 : b = 0
    · subst h0; rfl
    by_cases h1 : b = 1
    · subst h1; rfl
    by_cases h2 : 32 ≤ b ∧ b ≤ 63
    · rw [Identifier.from_byte, if_neg h0, if_neg h1, if_pos h2]; rfl
    · rw [Identifier.from_byte, if_neg h0, if_neg h1, if_neg h2]; rfl

/-- Witness for C8 at `b = 40` (UserDefined) and `b = 64` (Reserved). -/
theorem identifier_round_trip_witness :
    Identifier.from_byte 40 = .UserDefined 40 ∧
    Identifier.from_byte 64 = .Reserved 64 ∧
    (Identifier.from_byte 64).to_byte = 64 :=
  ⟨identifier_round_trip.2.2.1 40 (by decide) (by decide),
   identifier_round_trip.2.2.2.1 64 (by decide) (by decide) (by decide),
   identifier_round_trip.2.2.2.2 64⟩

theorem from_data_get_data (pid : PID) (data : List Nat)
    (h : data.length ≤ 8) :
    (Frame.from_data pid data).map Frame.get_data = some data := by
  rw [from_data_eq pid data h]
  simp only [Option.map_some', Option.some.injEq, Frame.get_data]
  rw [List.append_assoc]
  exact take_length_append data _

/-- `NAD`: the address of the slave node (newtype over `u8`). -/
structure NAD where
  val : Nat
deriving DecidableEq

/-- `PCI`: the transport layer protocol control information byte. -/
structure PCI where
  val : Nat
deriving DecidableEq

/-- `SID`: the service identifier byte. -/
structure SID where
  val : Nat
deriving DecidableEq

/-- `PCI::new_sf`: asserts the length is at most 5 (`none` on violation)
and encodes a Single Frame PCI as `length + 1`. -/
def PCI.new_sf (length : Nat) : Option PCI :=
  if length ≤ 5 then some ⟨length + 1⟩ else none

/-- `transport::create_single_frame`: asserts the data is non-empty and
at most 5 bytes (`none` on violation), fills an 8 byte buffer with `0xFF`,
writes NAD, SF PCI and SID into bytes 0..2 and the data from byte 3 on,
and builds the frame with `Frame::from_data`. -/
def create_single_frame (pid : PID) (nad : NAD) (sid : SID)
    (data : List Nat) : Option Frame :=
  if data ≠ [] ∧ data.length ≤ 5 then
    match PCI.new_sf data.length with
    | some pci =>
        Frame.from_data pid
          ([nad.val, pci.val, sid.val] ++ data ++
            List.replicate (5 - data.length) 0xFF)
    | none => none
  else
    none

theorem create_single_frame_eq (pid : PID) (nad : NAD) (sid : SID)
    (data : List Nat) (hne : data ≠ []) (hle : data.length ≤ 5) :
    create_single_frame pid nad sid data =
      Frame.from_data pid
        ([nad.val, data.length + 1, sid.val] ++ data ++
          List.replicate (5 - data.length) 0xFF) := by
  have hpci : PCI.new_sf data.length = some ⟨data.length + 1⟩ := by
    rw [PCI.new_sf, if_pos hle]
  rw [create_single_frame, if_pos ⟨hne, hle⟩, hpci]

theorem single_frame_payload_length (nad : NAD) (sid : SID)
    (data : List Nat) (hle : data.length ≤ 5) :
    ([nad.val, data.length + 1, sid.val] ++ data ++
      List.replicate (5 - data.length) 0xFF).length = 8 := by
  simp only [List.length_append, List.length_cons, List.length_nil,
    List.length_replicate]
  omega

/-- Claim C5: `create_single_frame` fails exactly on empty data or data
longer than 5 bytes; on 1 to 5 data bytes the payload is exactly 8 bytes:
NAD, then the SF PCI `data.len() + 1`, then SID, then the data, then
`0xFF` padding. `PCI::new_sf` fails exactly above length 5 and otherwise
encodes `length + 1`. -/
theorem create_single_frame_spec :
    (∀ (pid : PID) (nad : NAD) (sid : SID) (data : List Nat),
      create_single_frame pid nad sid data = none ↔
        data = [] ∨ 5 < data.length) ∧
    (∀ (pid : PID) (nad : NAD) (sid : SID) (data : List Nat),
      data ≠ [] → data.length ≤ 5 →
      (create_single_frame pid nad sid data).map Frame.get_data =
        some ([nad.val, data.length + 1, sid.val] ++ data ++
          List.replicate (5 - data.length) 0xFF) ∧
      (create_single_frame pid nad sid data).map
          (fun f => f.get_data.length) = some 8) ∧
    (∀ l : Nat, (PCI.new_sf l = none ↔ 5 < l) ∧
      (l ≤ 5 → PCI.new_sf l = some ⟨l + 1⟩)) := by
  refine ⟨?_, ?_, ?_⟩
  · intro pid nad sid data
    by_cases hc : data ≠ [] ∧ data.length ≤ 5
    · obtain ⟨hne, hle⟩ := hc
      rw [create_single_frame_eq pid nad sid data hne hle,
        from_data_eq pid _ (by rw [single_frame_payload_length nad sid data hle])]
      constructor
      · intro hx
        exact Option.noConfusion hx
      · intro hx
        cases hx with
        | inl h0 => exact absurd h0 hne
        | inr h5 => exact absurd h5 (by omega)
    · have hnone : create_single_frame pid nad sid data = none := by
        rw [create_single_frame, if_neg hc]
      rw [hnone]
      simp only [true_iff]
      by_cases he : data = []
      · exact Or.inl he
      · right
        by_contra h5
        exact hc ⟨he, by omega⟩
  · intro pid nad sid data hne hle
    rw [create_single_frame_eq pid nad sid data hne hle]
    have h8 :
        ([nad.val, data.length + 1, sid.val] ++ data ++
          List.replicate (5 - data.length) 0xFF).length ≤ 8 := by
      rw [single_frame_payload_length nad sid data hle]
    refine ⟨from_data_get_data pid _ h8, ?_⟩
    rw [from_data_eq pid _ h8]
    simp only [Option.map_some', Option.some.injEq, Frame.get_data]
    rw [take_length_append2]
    exact single_frame_payload_length nad sid data hle
  · intro l
    constructor
    · by_cases hl : l ≤ 5
      · rw [PCI.new_sf, if_pos hl]
        constructor
        · intro hx
          exact Option.noConfusion hx
        · omega
      · rw [PCI.new_sf, if_neg hl]
        constructor
        · intro _
          omega
        · intro _
          rfl
    · intro hl
      rw [PCI.new_sf, if_pos hl]

/-- Witness for C5 at the read-by-identifier request payload. -/
theorem create_single_frame_spec_witness :
    (create_single_frame ⟨0x3C⟩ ⟨0x10⟩ ⟨0xB2⟩
      [0x01, 0xB3, 0x00, 0x01, 0x10]).map Frame.get_data =
      some [0x10, 0x06, 0xB2, 0x01, 0xB3, 0x00, 0x01, 0x10] :=
  (create_single_frame_spec.2.1 ⟨0x3C⟩ ⟨0x10⟩ ⟨0xB2⟩
    [0x01, 0xB3, 0x00, 0x01, 0x10] (by decide) (by decide)).1

/-- `LittleEndian::read_u64` over the first 8 bytes of the buffer:
byte 0 is the least significant byte. -/
def read_u64_le (buffer : List Nat) : Nat :=
  (buffer.take 8).foldr (fun b acc => b + 256 * acc) 0

/-- The bit extraction of the `bitfield` crate dependency, modelled from
its contract: `num.bit_range(msb, lsb)` is the unsigned value of bits
`lsb ..= msb` of `num`. -/
def bit_range (num msb lsb : Nat) : Nat :=
  (num >>> lsb) % 2 ^ (msb - lsb + 1)

/-- `Frame::decode` as implemented in frame.rs: asserts
`offset + length <= data_length * 8` ("Not enough data available") and
`length <= size_of::<T>() * 8` ("Output type not big enough", `t_width`
is the bit width of `T`), then extracts bits
`offset ..= offset + length - 1` of the buffer read as a little-endian
`u64`. `none` models the panics, including the `usize` underflow of
`offset + length - 1` when offset and length are both zero. -/
def Frame.decode (f : Frame) (offset length t_width : Nat) : Option Nat :=
  if offset + length ≤ f.data_length * 8 then
    if length ≤ t_width then
      if offset + length = 0 then none
      else some (bit_range (read_u64_le f.buffer) (offset + length - 1) offset)
    else none
  else none

/-- `Frame::decode` as duplicated in master.rs: identical to the frame.rs
version except that the first assert uses the strict bound
`offset + length < data_length * 8`. -/
def Frame.master_decode (f : Frame) (offset length t_width : Nat) :
    Option Nat :=
  if offset + length < f.data_length * 8 then
    if length ≤ t_width then
      if offset + length = 0 then none
      else some (bit_range (read_u64_le f.buffer) (offset + length - 1) offset)
    else none
  else none

/-- Claim C3 (divergence between the duplicate implementations): the
master.rs copy of `Frame::decode` rejects the boundary case
`offset + length = data_length * 8` that the frame.rs copy and the
specification accept. Extracting all 16 bits of payload `[0x55, 0xDD]`
fails ("Not enough data available") in master.rs although the data does
not exceed the available 16 bits, while frame.rs returns `0xDD55`; on the
strictly in-range examples the two implementations agree. -/
theorem decode_boundary_divergence :
    (Frame.from_data ⟨0⟩ [0x55, 0xDD]).map
        (fun f => f.master_decode 0 16 16) = some none ∧
    (Frame.from_data ⟨0⟩ [0x55, 0xDD]).map
        (fun f => f.decode 0 16 16) = some (some 0xDD55) ∧
    (Frame.from_data ⟨0⟩ [254, 251, 239, 255]).map
        (fun f => (f.decode 0 10 16, f.decode 10 10 16, f.decode 20 11 16)) =
      some (some 1022, some 1022, some 2046) ∧
    (Frame.from_data ⟨0⟩ [254, 251, 239, 255]).map
        (fun f => (f.master_decode 0 10 16, f.master_decode 10 10 16,
          f.master_decode 20 11 16)) =
      some (some 1022, some 1022, some 2046) :=
  ⟨by decide, by decide, by decide, by decide⟩

/-- `ProductId`: the LIN slave node product identification. -/
structure ProductId where
  supplier_id : Nat
  function_id : Nat
  variant : Nat

/-- `P2Min` (an `f32` time in ms, inert for the claims verified here). -/
structure P2Min where
  val : Float

/-- `STMin` (an `f32` time in ms, inert for the claims verified here). -/
structure STMin where
  val : Float

/-- `NAsTimeout` (an `f32` time in ms, inert for the claims verified
here). -/
structure NAsTimeout where
  val : Float

/-- `NCrTimeout` (an `f32` time in ms, inert for the claims verified
here). -/
structure NCrTimeout where
  val : Float

/-- `NodeAttributes` from ldf.rs: the most important node attributes. -/
structure NodeAttributes where
  configured_nad : NAD
  initial_nad : NAD
  product_id : ProductId
  p2_min : P2Min
  st_min : STMin
  n_as_timeout : NAsTimeout
  n_cr_timeout : NCrTimeout

/-- `diagnostic::MASTER_REQUEST_FRAME_PID`: the PID of frame id 0x3C. -/
def MASTER_REQUEST_FRAME_PID : PID :=
  PID.from_id_const 0x3C

/-- `diagnostic::SLAVE_RESPONSE_FRAME_PID`: the PID of frame id 0x3D. -/
def SLAVE_RESPONSE_FRAME_PID : PID :=
  PID.from_id_const 0x3D

/-- `diagnostic::READ_BY_IDENTIFIER_SID`. -/
def READ_BY_IDENTIFIER_SID : SID :=
  ⟨0xB2⟩

/-- `diagnostic::create_read_by_identifier_frame`: a single frame carrying
the read-by-identifier request; the two `as u8` casts of the `u16` halves
are `% 256`. -/
def create_read_by_identifier_frame (nad : NAD) (identifier : Identifier)
    (supplier_id function_id : Nat) : Option Frame :=
  create_single_frame MASTER_REQUEST_FRAME_PID nad READ_BY_IDENTIFIER_SID
    [identifier.to_byte,
     supplier_id &&& 0xFF,
     (supplier_id >>> 8) % 256,
     function_id &&& 0xFF,
     (function_id >>> 8) % 256]

/-- `diagnostic::create_read_by_identifier_frame_from_node_attributes`. -/
def create_read_by_identifier_frame_from_node_attributes
    (node_attributes : NodeAttributes) (identifier : Identifier) :
    Option Frame :=
  create_read_by_identifier_frame node_attributes.initial_nad identifier
    node_attributes.product_id.supplier_id
    node_attributes.product_id.function_id

/-- Claim C9: building the read-by-identifier frame from node attributes
takes the NAD from `initial_nad` (not `configured_nad`): it equals
`create_read_by_identifier_frame` applied to `initial_nad` and the
product id fields. -/
theorem read_by_identifier_uses_initial_nad :
    ∀ (node_attributes : NodeAttributes) (identifier : Identifier),
      create_read_by_identifier_frame_from_node_attributes
          node_attributes identifier =
        create_read_by_identifier_frame node_attributes.initial_nad
          identifier node_attributes.product_id.supplier_id
          node_attributes.product_id.function_id :=
  fun _ _ => rfl

/-- `crate::Error` from lib.rs. -/
inductive Error where
  | Timeout
  | PhysicalBus
  | Checksum
deriving DecidableEq

/-- One driver interaction of the master, recorded in call order:
`send_header(pid)` or a `read` into a buffer of `n` bytes. -/
inductive Ev where
  | sendHeader (pid : Nat)
  | readBytes (n : Nat)
deriving DecidableEq

/-- A deterministic model of the `driver::Master` trait: the result of
`send_header` for each PID byte, the bytes `read` stores into a buffer of
each requested size (or the error it returns), and the
`From<crate::Error>` conversion into the driver error type. -/
structure Driver (ε : Type) where
  sendHeader : Nat → Except ε Unit
  readBuf : Nat → Except ε (List Nat)
  fromError : Error → ε

/-- The checksum selection block shared by `Frame::from_data` and
`Master::read_frame`: classic checksum if `uses_classic_checksum`,
enhanced checksum seeded with the PID otherwise. -/
def expected_checksum (pid : PID) (data : List Nat) : Nat :=
  if pid.uses_classic_checksum then classic_checksum data
  else checksum pid data

/-- The 9 byte frame buffer after `read` stored `bs` into its first
`data_length + 1` bytes (the rest stays zeroed); the padding after `bs`
only matters when the driver model returns fewer bytes than the buffer
slice holds, which the trait contract rules out. -/
def read_buffer (bs : List Nat) (data_length : Nat) : List Nat :=
  (bs.take (data_length + 1) ++
    List.replicate (data_length + 1 - bs.length) 0) ++
  List.replicate (8 - data_length) 0

/-- `Master::read_frame` from master.rs: asserts `data_length <= 8`
(`none` models the panic), sends the header for `pid`, reads
`data_length + 1` bytes into the frame buffer, recomputes the expected
checksum over the data bytes just read and compares it with the trailing
byte; driver errors are returned as they are, a mismatch becomes
`Error::Checksum` through the driver error conversion. The first
component records the driver calls in order. -/
def read_frame (drv : Driver ε) (pid : PID) (data_length : Nat) :
    Option (List Ev × Except ε Frame) :=
  if data_length ≤ 8 then
    some (match drv.sendHeader pid.val with
      | .error e => ([Ev.sendHeader pid.val], .error e)
      | .ok _ =>
        match drv.readBuf (data_length + 1) with
        | .error e =>
            ([Ev.sendHeader pid.val, Ev.readBytes (data_length + 1)],
             .error e)
        | .ok bs =>
            ([Ev.sendHeader pid.val, Ev.readBytes (data_length + 1)],
             if expected_checksum pid
                  ((read_buffer bs data_length).take data_length) ≠
                (read_buffer bs data_length).getD data_length 0 then
               .error (drv.fromError Error.Checksum)
             else
               .ok { pid := pid
                   , buffer := read_buffer bs data_length
                   , data_length := data_length }))
  else
    none

theorem expected_checksum_eq (p : PID) (d : List Nat) :
    expected_checksum p d =
      if 60 ≤ p.get_id then classic_checksum d else checksum p d := by
  rw [expected_checksum]
  by_cases h60 : 60 ≤ p.get_id
  · rw [if_pos ((uses_classic_iff p).mpr h60), if_pos h60]
  · rw [if_neg (fun hc => h60 ((uses_classic_iff p).mp hc)), if_neg h60]

theorem read_buffer_of_length (bs : List Nat) (dl : Nat)
    (hbs : bs.length = dl + 1) :
    read_buffer bs dl = bs ++ List.replicate (8 - dl) 0 := by
  rw [read_buffer, ← hbs, List.take_length bs, Nat.sub_self,
    List.replicate_zero, List.append_nil]

theorem take_concat_getD (bs : List Nat) (dl : Nat)
    (hbs : bs.length = dl + 1) :
    bs.take dl ++ [bs.getD dl 0] = bs := by
  have hdl : dl < bs.length := by omega
  rw [List.getD_eq_getElem bs 0 hdl, ← List.concat_eq_append,
    List.take_concat_get bs dl hdl, ← hbs]
  exact List.take_length bs

/-- Claim C4: under the precondition `data_length <= 8`, `read_frame`
sends the header for `pid` and reads exactly `data_length + 1` bytes;
driver errors from `send_header` or `read` are propagated unchanged; with
bytes `bs` filling the buffer it returns the `Checksum` error exactly
when the selection-rule checksum recomputed over the data bytes differs
from the trailing byte, and otherwise the frame that
`Frame::from_data pid (data bytes)` constructs. -/
theorem read_frame_spec (ε : Type) (drv : Driver ε) (pid : PID) (dl : Nat)
    (hdl : dl ≤ 8) :
    (∀ e : ε, drv.sendHeader pid.val = .error e →
      read_frame drv pid dl = some ([Ev.sendHeader pid.val], .error e)) ∧
    (∀ e : ε, drv.sendHeader pid.val = .ok () →
      drv.readBuf (dl + 1) = .error e →
      read_frame drv pid dl =
        some ([Ev.sendHeader pid.val, Ev.readBytes (dl + 1)], .error e)) ∧
    (∀ bs : List Nat, drv.sendHeader pid.val = .ok () →
      drv.readBuf (dl + 1) = .ok bs → bs.length = dl + 1 →
      ((if 60 ≤ pid.get_id then classic_checksum (bs.take dl)
        else checksum pid (bs.take dl)) ≠ bs.getD dl 0 →
        read_frame drv pid dl =
          some ([Ev.sendHeader pid.val, Ev.readBytes (dl + 1)],
            .error (drv.fromError Error.Checksum))) ∧
      ((if 60 ≤ pid.get_id then classic_checksum (bs.take dl)
        else checksum pid (bs.take dl)) = bs.getD dl 0 →
        read_frame drv pid dl =
          (Frame.from_data pid (bs.take dl)).map
            (fun f => ([Ev.sendHeader pid.val, Ev.readBytes (dl + 1)],
              Except.ok f)))) := by
  refine ⟨?_, ?_, ?_⟩
  · intro e he
    unfold read_frame
    rw [if_pos hdl, he]
  · intro e hs hr
    unfold read_frame
    rw [if_pos hdl, hs, hr]
  · intro bs hs hr hbs
    have hdlb : dl < bs.length := by omega
    have hrb : read_buffer bs dl = bs ++ List.replicate (8 - dl) 0 :=
      read_buffer_of_length bs dl hbs
    have htake : (bs ++ List.replicate (8 - dl) 0).take dl = bs.take dl :=
      List.take_append_of_le_length (by omega)
    have hgetD : (bs ++ List.replicate (8 - dl) 0).getD dl 0 = bs.getD dl 0 :=
      List.getD_append bs _ 0 dl hdlb
    have hlen : (bs.take dl).length = dl := by
      rw [List.length_take]
      exact Nat.min_eq_left (by omega)
    have hlhs : read_frame drv pid dl =
        some ([Ev.sendHeader pid.val, Ev.readBytes (dl + 1)],
          if (if 60 ≤ pid.get_id then classic_checksum (bs.take dl)
              else checksum pid (bs.take dl)) ≠ bs.getD dl 0 then
            .error (drv.fromError Error.Checksum)
          else
            .ok { pid := pid
                , buffer := bs ++ List.replicate (8 - dl) 0
                , data_length := dl }) := by
      unfold read_frame
      rw [if_pos hdl, hs, hr]
      simp only [hrb, expected_checksum_eq, htake, hgetD]
    constructor
    · intro hne
      rw [hlhs, if_pos hne]
    · intro heq
      rw [hlhs, if_neg (fun hn => hn heq)]
      rw [from_data_eq pid (bs.take dl) (by rw [hlen]; exact hdl)]
      rw [Option.map_some']
      rw [heq, hlen, take_concat_getD bs dl hbs]

/-- A driver model whose read returns the frame `[0x01]` with its correct
enhanced checksum `0x21`, for the C4 witness. -/
def test_driver : Driver Error :=
  { sendHeader := fun _ => .ok ()
  , readBuf := fun _ => .ok [0x01, 0x21]
  , fromError := fun e => e }

/-- Witness for C4: the matching-checksum read at `pid = PID(0xDD)`,
`data_length = 1`. -/
theorem read_frame_spec_witness :
    read_frame test_driver ⟨0xDD⟩ 1 =
      (Frame.from_data ⟨0xDD⟩ ([0x01, 0x21].take 1)).map
        (fun f => ([Ev.sendHeader 0xDD, Ev.readBytes 2], Except.ok f)) :=
  ((read_frame_spec Error test_driver ⟨0xDD⟩ 1 (by decide)).2.2
    [0x01, 0x21] rfl rfl (by decide)).2 (by decide)

/-- Claim C10: with byte-valued inputs the checksum accumulator is at most
255 after seeding and after every fold step, every intermediate `u16` sum
is at most 510 so the `% 2^16` reduction never truncates, and the final
`as u8` cast discards nothing: the checksum is the complement of the
entire accumulator. -/
theorem checksum_accumulator_bounded :
    ∀ (p : Nat) (data : List Nat), p ≤ 255 → (∀ v ∈ data, v ≤ 255) →
      (∀ pre suf : List Nat, data = pre ++ suf →
        checksum_acc ⟨p⟩ pre ≤ 255) ∧
      (∀ (pre : List Nat) (v : Nat) (suf : List Nat),
        data = pre ++ v :: suf →
        checksum_acc ⟨p⟩ pre + v ≤ 510 ∧
        (checksum_acc ⟨p⟩ pre + v) % 65536 = checksum_acc ⟨p⟩ pre + v) ∧
      checksum_acc ⟨p⟩ data % 256 = checksum_acc ⟨p⟩ data ∧
      checksum ⟨p⟩ data = 255 - checksum_acc ⟨p⟩ data := by
  intro p data hp hd
  have hpre : ∀ pre suf : List Nat, data = pre ++ suf →
      checksum_acc ⟨p⟩ pre ≤ 255 := by
    intro pre suf hsplit
    have hd2 : ∀ v ∈ pre, v ≤ 255 := by
      intro v hv
      exact hd v (hsplit ▸ List.mem_append_left suf hv)
    exact (checksum_fold_invariant pre p hp hd2).2
  refine ⟨hpre, ?_, ?_, ?_⟩
  · intro pre v suf hsplit
    have hacc : checksum_acc ⟨p⟩ pre ≤ 255 :=
      hpre pre (v :: suf) hsplit
    have hv : v ≤ 255 :=
      hd v (hsplit ▸ List.mem_append_right pre (List.mem_cons_self v suf))
    exact ⟨by omega, Nat.mod_eq_of_lt (by omega)⟩
  · have hacc : checksum_acc ⟨p⟩ data ≤ 255 :=
      hpre data [] (by rw [List.append_nil])
    exact Nat.mod_eq_of_lt (by omega)
  · have hacc : checksum_acc ⟨p⟩ data ≤ 255 :=
      hpre data [] (by rw [List.append_nil])
    rw [checksum, Nat.mod_eq_of_lt (by omega)]

/-- Witness for C10 at `p = 0xDD`, `data = [0x01]`. -/
theorem checksum_accumulator_bounded_witness :
    checksum ⟨0xDD⟩ [0x01] = 255 - checksum_acc ⟨0xDD⟩ [0x01] :=
  (checksum_accumulator_bounded 0xDD [0x01] (by decide) (by decide)).2.2.2

end LinBus
